import Mathlib

/-!
Verification of the Eidon parametric-CAD core against its specification.

The IR data model is translated from `src/frontend/src/types/ir.ts` (the
TypeScript mirror of the backend Pydantic models).  The backend core modules
(`app/core/analysis.py`, `app/core/ir.py`, `app/core/builder.py`) are not part
of the source tree; the analyzer, validator, sketch solver and rebuild
orchestrator are therefore modelled from the specification, as marked on each
definition.  The frontend editing operations are translated from
`src/frontend/src/App.tsx` and `src/frontend/src/components/SketchEditor.tsx`.
-/

/- Allow kernel evaluation of rational arithmetic in concrete examples. -/
unseal Rat.add Rat.mul Rat.sub Rat.inv Rat.ofScientific

namespace Eidon

/-- Parameter model, from `interface Param` in ir.ts:
`name`, `value`, `unit`, optional `tolerance_class`. -/
structure Param where
  name : String
  value : ℚ
  unit : String
  tolerance_class : Option String
  deriving DecidableEq

/-- Sketch entity kinds, from `SketchEntity.type : 'line' | 'circle' | 'rectangle'`. -/
inductive EntityType where
  | line
  | circle
  | rectangle
  deriving DecidableEq

/-- Sketch entity, from `interface SketchEntity` in ir.ts.  Each geometric
field is optional in the TypeScript interface and only populated for the
variant that needs it. -/
structure SketchEntity where
  id : String
  type : EntityType
  start : Option (ℚ × ℚ)
  «end» : Option (ℚ × ℚ)
  center : Option (ℚ × ℚ)
  radius : Option ℚ
  corner1 : Option (ℚ × ℚ)
  corner2 : Option (ℚ × ℚ)
  isConstruction : Bool
  deriving DecidableEq

/-- Constraint kinds, from `SketchConstraint.type : 'horizontal' | 'vertical' | 'coincident'`. -/
inductive ConstraintType where
  | horizontal
  | vertical
  | coincident
  deriving DecidableEq

/-- Sketch constraint, from `interface SketchConstraint` in ir.ts (the
untyped optional `params` record carries no data relevant here and is
omitted). -/
structure SketchConstraint where
  id : String
  type : ConstraintType
  entity_ids : List String
  deriving DecidableEq

/-- Dimension kinds, from `SketchDimension.type : 'length' | 'diameter'`. -/
inductive DimType where
  | length
  | diameter
  deriving DecidableEq

/-- Sketch dimension, from `interface SketchDimension` in ir.ts. -/
structure SketchDimension where
  id : String
  type : DimType
  entity_ids : List String
  value : ℚ
  unit : String
  deriving DecidableEq

/-- Sketch, from `interface Sketch` in ir.ts. -/
structure Sketch where
  name : String
  plane : String
  entities : List SketchEntity
  constraints : List SketchConstraint
  dimensions : List SketchDimension
  deriving DecidableEq

/-- Feature kinds, from `Feature.type : "sketch" | "extrude"` in ir.ts. -/
inductive FeatureType where
  | sketch
  | extrude
  deriving DecidableEq

/-- A feature parameter value: a string literal / reference or a number,
from `params: Record<string, string | number>` in ir.ts. -/
inductive FeatValue where
  | str (s : String)
  | num (q : ℚ)
  deriving DecidableEq

/-- Feature, from `interface Feature` in ir.ts. -/
structure Feature where
  type : FeatureType
  name : String
  params : List (String × FeatValue)
  critical : Bool
  sketch : Option Sketch
  deriving DecidableEq

/-- Tolerance chain, from `interface Chain` in ir.ts. -/
structure Chain where
  name : String
  terms : List String
  target_value : Option ℚ
  target_tolerance : Option ℚ
  deriving DecidableEq

/-- Issue severities, from `ValidationIssue.severity : "info" | "warning" | "error"`. -/
inductive Severity where
  | info
  | warning
  | error
  deriving DecidableEq

/-- Validation issue, from `interface ValidationIssue` in ir.ts. -/
structure ValidationIssue where
  code : String
  severity : Severity
  message : String
  related_params : List String
  related_features : List String
  related_chains : List String
  deriving DecidableEq

/-- Part root aggregate, from `interface Part` in ir.ts; `params` is a
`Record<string, Param>` keyed by parameter name, modelled as an association
list.  The optional `constraints`/`sketches` fields of the TypeScript
interface carry no behaviour in the modelled core and are inventoried
separately for the interface-shape claim. -/
structure Part where
  name : String
  params : List (String × Param)
  features : List Feature
  chains : List Chain
  deriving DecidableEq

/-! ## Tolerance chain analyzer (spec §4.5) -/

/-- A tolerance-class table entry maps a symbolic class (e.g. "g6", "H7") to a
signed deviation range `(lowerDev, upperDev)`. -/
abbrev ToleranceTable := List (String × (ℚ × ℚ))

/-- Modelled from the spec: deviation-range lookup of `app/core/analysis.py`
(absent from the source tree).  A missing `tolerance_class` or an unknown
class contributes the zero range, per §4.5 ("terms without a tolerance class
contribute 0 deviation"). -/
def lookupDev (table : ToleranceTable) (cls : Option String) : ℚ × ℚ :=
  match cls with
  | none => (0, 0)
  | some c =>
    match table.lookup c with
    | some d => d
    | none => (0, 0)

/-- Resolve a parameter by name in a part (the `params` record is keyed by
name). -/
def findParam (part : Part) (n : String) : Option Param :=
  part.params.lookup n

/-- Evaluation result `{nominal, min, max}`, from `interface ChainEvaluation`
(and `ParamEvaluation`, which has the same shape) in ir.ts. -/
structure ChainEval where
  nominal : ℚ
  min : ℚ
  max : ℚ
  deriving DecidableEq

/-- Modelled from the spec: the worst-case tolerance chain analyzer
`analyze(part, chain)` of `app/core/analysis.py` (absent from the source
tree), per §4.5: a single pass over the chain's terms accumulating the
nominal sum and the signed deviation sums; a term whose parameter does not
resolve contributes nothing. -/
def analyze (table : ToleranceTable) (part : Part) (chain : Chain) : ChainEval :=
  let step := fun (acc : ℚ × ℚ × ℚ) (term : String) =>
    match findParam part term with
    | none => acc
    | some p =>
      let d := lookupDev table p.tolerance_class
      (acc.1 + p.value, acc.2.1 + d.1, acc.2.2 + d.2)
  let r := chain.terms.foldl step (0, 0, 0)
  ⟨r.1, r.1 + r.2.1, r.1 + r.2.2⟩

/-- Nominal contribution of a single chain term, for the closed-form reading
of §4.5. -/
def termNominal (part : Part) (t : String) : ℚ :=
  match findParam part t with
  | none => 0
  | some p => p.value

/-- Lower-deviation contribution of a single chain term. -/
def termLowerDev (table : ToleranceTable) (part : Part) (t : String) : ℚ :=
  match findParam part t with
  | none => 0
  | some p => (lookupDev table p.tolerance_class).1

/-- Upper-deviation contribution of a single chain term. -/
def termUpperDev (table : ToleranceTable) (part : Part) (t : String) : ℚ :=
  match findParam part t with
  | none => 0
  | some p => (lookupDev table p.tolerance_class).2

/-- Sum of nominal values over the chain's terms in declared order. -/
def chainNominalSum (part : Part) (chain : Chain) : ℚ :=
  (chain.terms.map (termNominal part)).sum

/-- Sum of lower deviations over the chain's terms. -/
def chainLowerSum (table : ToleranceTable) (part : Part) (chain : Chain) : ℚ :=
  (chain.terms.map (termLowerDev table part)).sum

/-- Sum of upper deviations over the chain's terms. -/
def chainUpperSum (table : ToleranceTable) (part : Part) (chain : Chain) : ℚ :=
  (chain.terms.map (termUpperDev table part)).sum

/-- The accumulator of `analyze` splits into the three per-term sums. -/
theorem analyze_foldl_split (table : ToleranceTable) (part : Part)
    (ts : List String) (a b c : ℚ) :
    ts.foldl (fun (acc : ℚ × ℚ × ℚ) (term : String) =>
      match findParam part term with
      | none => acc
      | some p =>
        let d := lookupDev table p.tolerance_class
        (acc.1 + p.value, acc.2.1 + d.1, acc.2.2 + d.2)) (a, b, c) =
      (a + (ts.map (termNominal part)).sum,
       b + (ts.map (termLowerDev table part)).sum,
       c + (ts.map (termUpperDev table part)).sum) := by
  induction ts generalizing a b c with
  | nil => simp
  | cons t ts ih =>
    simp only [List.foldl_cons, List.map_cons, List.sum_cons]
    cases h : findParam part t with
    | none =>
      simp only [h, termNominal, termLowerDev, termUpperDev, ih]
      ring_nf
    | some p =>
      simp only [h, termNominal, termLowerDev, termUpperDev, ih]
      ring_nf

/-- Example data for the chain-stackup example of spec §8: `a = 20` with a
tolerance class of range `[-0.013, 0]` and `b = 80` with a class of range
`[0, +0.030]`. -/
def exTable : ToleranceTable :=
  [("g6", (-(13/1000 : ℚ), 0)), ("H7", ((0 : ℚ), 30/1000))]

/-- Example part for the chain-stackup example. -/
def exPart : Part :=
  { name := "ex"
  , params :=
      [ ("a", { name := "a", value := 20, unit := "mm", tolerance_class := some "g6" })
      , ("b", { name := "b", value := 80, unit := "mm", tolerance_class := some "H7" })
      ]
  , features := []
  , chains := [] }

/-- Example chain `[a, b]` for the chain-stackup example. -/
def exChain : Chain :=
  { name := "c", terms := ["a", "b"], target_value := none, target_tolerance := none }

/-- Claim C1: for every chain over a part the analyzer returns nominal equal
to the sum of the terms' nominal values in declared order, min equal to
nominal plus the sum of lower deviations, and max equal to nominal plus the
sum of upper deviations, with terms lacking a tolerance class contributing
zero deviation (this is built into the per-term deviation sums); and on the
concrete example chain `[a, b]` with `a = 20` over range `[-0.013, 0]` and
`b = 80` over range `[0, +0.030]` it returns nominal 100, min 99.987 and max
100.030. -/
theorem chain_stackup_worst_case (table : ToleranceTable) (part : Part) (chain : Chain) :
    analyze table part chain =
      ⟨chainNominalSum part chain,
       chainNominalSum part chain + chainLowerSum table part chain,
       chainNominalSum part chain + chainUpperSum table part chain⟩ ∧
    analyze exTable exPart exChain = ⟨100, 99987/1000, 100030/1000⟩ := by
  constructor
  · simp only [analyze, chainNominalSum, chainLowerSum, chainUpperSum,
      analyze_foldl_split, zero_add]
  · decide

/-! ## Sketch constraint solver, DOF accounting (spec §4.3) -/

/-- Modelled from the spec: degrees of freedom per entity type in the sketch
solver of the backend (absent from the source tree), per §4.3: a line has 4
(two 2D endpoints), a circle has 3 (center x/y, radius), a rectangle has 4
(two opposite corners). -/
def entityDOF : EntityType → ℤ
  | .line => 4
  | .circle => 3
  | .rectangle => 4

/-- Modelled from the spec: DOF removed per constraint, per §4.3:
`horizontal`/`vertical` remove 1, `coincident` removes 2. -/
def constraintDOF : ConstraintType → ℤ
  | .horizontal => 1
  | .vertical => 1
  | .coincident => 2

/-- Modelled from the spec: DOF removed per driving dimension, per §4.3: a
driving `length`/`diameter` dimension removes 1. -/
def dimensionDOF : DimType → ℤ
  | .length => 1
  | .diameter => 1

/-- DOF removed from one entity by the constraints and dimensions that
reference it. -/
def entityRemovedDOF (s : Sketch) (eid : String) : ℤ :=
  ((s.constraints.filter (fun c => c.entity_ids.contains eid)).map
      (fun c => constraintDOF c.type)).sum +
  ((s.dimensions.filter (fun d => d.entity_ids.contains eid)).map
      (fun d => dimensionDOF d.type)).sum

/-- Remaining DOF of a single entity. -/
def entityRemainingDOF (s : Sketch) (e : SketchEntity) : ℤ :=
  entityDOF e.type - entityRemovedDOF s e.id

/-- Modelled from the spec: global remaining DOF of a sketch as computed by
the backend solver (absent from the source tree): the entity DOF budget minus
the total removed by constraints and dimensions. -/
def dofRemaining (s : Sketch) : ℤ :=
  s.entities.foldl (fun a e => a + entityDOF e.type) 0 -
    s.constraints.foldl (fun a c => a + constraintDOF c.type) 0 -
    s.dimensions.foldl (fun a d => a + dimensionDOF d.type) 0

/-- Modelled from the spec: the per-entity issues of the solver, per §4.3 and
§4.2: positive remaining DOF on an entity gives a warning with code
`SKETCH_ENTITY_UNCONSTRAINED`; negative remaining DOF gives an error with
code `SKETCH_OVERCONSTRAINED`. -/
def solveIssues (s : Sketch) : List ValidationIssue :=
  s.entities.filterMap (fun e =>
    let r := entityRemainingDOF s e
    if 0 < r then
      some ⟨"SKETCH_ENTITY_UNCONSTRAINED", .warning,
        "entity " ++ e.id ++ " is under-constrained", [], [], []⟩
    else if r < 0 then
      some ⟨"SKETCH_OVERCONSTRAINED", .error,
        "entity " ++ e.id ++ " is over-constrained", [], [], []⟩
    else none)

/-- Result of the solver: remaining DOF and issues. -/
structure SolveResult where
  dof_remaining : ℤ
  issues : List ValidationIssue
  deriving DecidableEq

/-- Modelled from the spec: `solve(sketch)` of the backend sketch solver
(absent from the source tree), restricted to its DOF accounting and issue
report. -/
def solve (s : Sketch) : SolveResult :=
  ⟨dofRemaining s, solveIssues s⟩

/-- Folding addition of a projection over a list equals the initial value
plus the sum of the projection. -/
theorem foldl_add_map_sum {α : Type} (f : α → ℤ) (l : List α) (init : ℤ) :
    l.foldl (fun a x => a + f x) init = init + (l.map f).sum := by
  induction l generalizing init with
  | nil => simp
  | cons x xs ih => simp [ih]; ring

/-- Example sketch for the DOF example of spec §8: one free line, one
`horizontal` constraint, one `length` dimension. -/
def exLineSketch : Sketch :=
  { name := "s1"
  , plane := "XY"
  , entities :=
      [{ id := "L1", type := .line, start := some (0, 0), «end» := some (10, 0)
       , center := none, radius := none, corner1 := none, corner2 := none
       , isConstruction := false }]
  , constraints := [{ id := "c1", type := .horizontal, entity_ids := ["L1"] }]
  , dimensions := [{ id := "d1", type := .length, entity_ids := ["L1"], value := 10, unit := "mm" }] }

/-- Claim C2: the solver accounts DOF as line 4, circle 3, rectangle 4;
`horizontal`/`vertical` remove 1, `coincident` removes 2, a driving
`length`/`diameter` dimension removes 1; the remaining DOF is the entity
budget minus all removals; and the sketch with one line, one horizontal
constraint and one length dimension has remaining DOF 2 and is reported
under-constrained with exactly one warning issue. -/
theorem sketch_dof_accounting :
    (∀ s : Sketch,
      dofRemaining s =
        (s.entities.map (fun e => entityDOF e.type)).sum -
          (s.constraints.map (fun c => constraintDOF c.type)).sum -
          (s.dimensions.map (fun d => dimensionDOF d.type)).sum) ∧
    entityDOF .line = 4 ∧ entityDOF .circle = 3 ∧ entityDOF .rectangle = 4 ∧
    constraintDOF .horizontal = 1 ∧ constraintDOF .vertical = 1 ∧
    constraintDOF .coincident = 2 ∧
    dimensionDOF .length = 1 ∧ dimensionDOF .diameter = 1 ∧
    (solve exLineSketch).dof_remaining = 2 ∧
    (solve exLineSketch).issues.map (fun i => (i.code, i.severity)) =
      [("SKETCH_ENTITY_UNCONSTRAINED", Severity.warning)] := by
  refine ⟨fun s => ?_, rfl, rfl, rfl, rfl, rfl, rfl, rfl, rfl, by decide, by decide⟩
  simp [dofRemaining, foldl_add_map_sum]

/-! ## Chain feasibility validation (spec §4.2, §4.5) -/

/-- Modelled from the spec: the feasibility judgement of the analyzer, per
§4.5: if `target_tolerance` is declared, the chain is feasible exactly when
`(max - nominal) ≤ target_tolerance` and `(nominal - min) ≤ target_tolerance`;
without a declared target the chain is trivially feasible. -/
def chainFeasible (table : ToleranceTable) (part : Part) (chain : Chain) : Bool :=
  match chain.target_tolerance with
  | none => true
  | some tt =>
    let ev := analyze table part chain
    decide (ev.max - ev.nominal ≤ tt) && decide (ev.nominal - ev.min ≤ tt)

/-- The `TOLERANCE_INFEASIBLE` error issue for a chain, per §4.2. -/
def toleranceInfeasibleIssue (chain : Chain) : ValidationIssue :=
  ⟨"TOLERANCE_INFEASIBLE", .error,
    "chain " ++ chain.name ++ " cannot satisfy its target tolerance",
    [], [], [chain.name]⟩

/-- The `REF_INVALID` error issue for a chain term that resolves to no
parameter, per §4.2. -/
def chainRefInvalidIssue (chain : Chain) (t : String) : ValidationIssue :=
  ⟨"REF_INVALID", .error,
    "chain " ++ chain.name ++ " references unknown param " ++ t,
    [t], [], [chain.name]⟩

/-- Modelled from the spec: the per-chain validation issues of the backend
validation engine (absent from the source tree), per §4.2: reference
integrity of each term in declared order, then tolerance feasibility. -/
def chainIssues (table : ToleranceTable) (part : Part) (chain : Chain) :
    List ValidationIssue :=
  (chain.terms.filterMap (fun t =>
    if (findParam part t).isSome then none else some (chainRefInvalidIssue chain t))) ++
  (if chainFeasible table part chain then [] else [toleranceInfeasibleIssue chain])

/-- Every issue produced by the term-reference pass has code `REF_INVALID`. -/
theorem chainRef_pass_codes (part : Part) (chain : Chain) (i : ValidationIssue)
    (hi : i ∈ chain.terms.filterMap (fun t =>
      if (findParam part t).isSome then none else some (chainRefInvalidIssue chain t))) :
    i.code = "REF_INVALID" := by
  rcases List.mem_filterMap.1 hi with ⟨t, _, ht⟩
  by_cases h : (findParam part t).isSome <;> simp [h] at ht
  subst ht
  rfl

/-- Claim C3: for every chain that declares a `target_tolerance`, the
analyzer judges the chain feasible exactly when `(max - nominal) ≤ target`
and `(nominal - min) ≤ target` for the worst-case stackup results, and the
validation issues for the chain contain an error with code
`TOLERANCE_INFEASIBLE` exactly when that condition is violated. -/
theorem tolerance_feasibility (table : ToleranceTable) (part : Part)
    (chain : Chain) (tt : ℚ) (h : chain.target_tolerance = some tt) :
    (chainFeasible table part chain = true ↔
      ((analyze table part chain).max - (analyze table part chain).nominal ≤ tt ∧
       (analyze table part chain).nominal - (analyze table part chain).min ≤ tt)) ∧
    ((∃ i ∈ chainIssues table part chain,
        i.code = "TOLERANCE_INFEASIBLE" ∧ i.severity = .error) ↔
      ¬ ((analyze table part chain).max - (analyze table part chain).nominal ≤ tt ∧
         (analyze table part chain).nominal - (analyze table part chain).min ≤ tt)) := by
  have hfeas : chainFeasible table part chain = true ↔
      ((analyze table part chain).max - (analyze table part chain).nominal ≤ tt ∧
       (analyze table part chain).nominal - (analyze table part chain).min ≤ tt) := by
    simp [chainFeasible, h]
  refine ⟨hfeas, ?_⟩
  rw [← hfeas]
  constructor
  · rintro ⟨i, hi, hcode, _⟩
    rcases List.mem_append.1 hi with hmem | hmem
    · have := chainRef_pass_codes part chain i hmem
      rw [this] at hcode
      exact absurd hcode (by decide)
    · intro hf
      rw [hf] at hmem
      simp at hmem
  · intro hf
    refine ⟨toleranceInfeasibleIssue chain, ?_, rfl, rfl⟩
    apply List.mem_append.2
    right
    cases hb : chainFeasible table part chain with
    | false => simp
    | true => exact absurd hb hf

/-- Example chain with a declared target tolerance that the stackup of
`exPart` cannot satisfy (max − nominal = 0.030 > 0.01). -/
def exChainT : Chain :=
  { name := "c", terms := ["a", "b"], target_value := none,
    target_tolerance := some (1/100) }

/-- Witness for C3: the feasibility theorem applied to the concrete
infeasible chain. -/
theorem tolerance_feasibility_witness :
    chainFeasible exTable exPart exChainT = false ∧
    ((∃ i ∈ chainIssues exTable exPart exChainT,
        i.code = "TOLERANCE_INFEASIBLE" ∧ i.severity = .error) ↔
      ¬ ((analyze exTable exPart exChainT).max - (analyze exTable exPart exChainT).nominal ≤ 1/100 ∧
         (analyze exTable exPart exChainT).nominal - (analyze exTable exPart exChainT).min ≤ 1/100)) :=
  ⟨by decide, (tolerance_feasibility exTable exPart exChainT (1/100) rfl).2⟩

/-! ## Validation engine (spec §4.2) and rebuild orchestrator (spec §4.4) -/

/-- A feature is extrude-typed. -/
def isExtrude (f : Feature) : Bool :=
  f.type == .extrude

/-- A feature is an extrude whose `operation` parameter is the string
`"cut"`, following the check suggested in `MVP_ANALYSIS.md`
(`f.params.get("operation") == "cut"`). -/
def isCutExtrude (f : Feature) : Bool :=
  isExtrude f && (f.params.lookup "operation" == some (.str "cut"))

/-- A parameter name is referenced from some feature parameter value or chain
term, per §4.2 (unused-parameter check). -/
def paramReferenced (part : Part) (n : String) : Bool :=
  part.features.any (fun f => f.params.any (fun kv => kv.2 == FeatValue.str n)) ||
  part.chains.any (fun c => c.terms.contains n)

/-- The `PARAM_UNUSED` warning issue, per §4.2. -/
def paramUnusedIssue (p : Param) : ValidationIssue :=
  ⟨"PARAM_UNUSED", .warning, "param " ++ p.name ++ " is unused", [p.name], [], []⟩

/-- Modelled from the spec: the per-parameter validation pass of the backend
validation engine (absent from the source tree), per §4.2. -/
def paramChecks (part : Part) (p : Param) : List ValidationIssue :=
  if paramReferenced part p.name then [] else [paramUnusedIssue p]

/-- The `MISSING_SKETCH_REF` error issue for an extrude without a sketch
reference, per §4.2. -/
def missingSketchRefIssue (f : Feature) : ValidationIssue :=
  ⟨"MISSING_SKETCH_REF", .error,
    "extrude feature " ++ f.name ++ " missing sketch reference", [], [f.name], []⟩

/-- The `REF_INVALID` error issue for an extrude whose sketch reference does
not resolve, per §4.2. -/
def featureRefInvalidIssue (f : Feature) (s : String) : ValidationIssue :=
  ⟨"REF_INVALID", .error,
    "extrude feature " ++ f.name ++ " references unknown sketch " ++ s,
    [], [f.name], []⟩

/-- Modelled from the spec: the per-feature validation pass of the backend
validation engine (absent from the source tree), per §4.2: an extrude must
carry a `sketch` reference that resolves to an existing sketch feature. -/
def featureChecks (part : Part) (f : Feature) : List ValidationIssue :=
  match f.type with
  | .sketch => []
  | .extrude =>
    match f.params.lookup "sketch" with
    | some (.str s) =>
      if part.features.any (fun g => g.type == .sketch && g.name == s) then []
      else [featureRefInvalidIssue f s]
    | _ => [missingSketchRefIssue f]

/-- Modelled from the spec: the negative-solid check, per §4.2 and the code
suggested in `MVP_ANALYSIS.md`: count the extrudes whose `operation` is
`"cut"` and flag `NEGATIVE_SOLID` when the count equals the number of
extrude features. -/
def negativeSolidCheck (part : Part) : List ValidationIssue :=
  let extrudes := part.features.filter isExtrude
  let cutCount := (part.features.filter isCutExtrude).length
  if cutCount = extrudes.length then
    [⟨"NEGATIVE_SOLID", .error,
      "All extrude operations are cuts - no base solid to cut from",
      [], extrudes.map (fun f => f.name), []⟩]
  else []

/-- Modelled from the spec: `validate(part)` of the backend validation engine
(absent from the source tree), per §4.2: all checks run, none short-circuits,
and issues are emitted in declaration order — params, then features, then
chains. -/
def validate (table : ToleranceTable) (part : Part) : List ValidationIssue :=
  let paramIssues := part.params.foldl (fun acc kv => acc ++ paramChecks part kv.2) []
  let featIssues :=
    (part.features.foldl (fun acc f => acc ++ featureChecks part f) []) ++
      negativeSolidCheck part
  let chainIss := part.chains.foldl (fun acc c => acc ++ chainIssues table part c) []
  paramIssues ++ featIssues ++ chainIss

/-- Closed form of the parameter section of `validate`. -/
def validateParams (part : Part) : List ValidationIssue :=
  (part.params.map (fun kv => paramChecks part kv.2)).flatten

/-- Closed form of the feature section of `validate`. -/
def validateFeatures (part : Part) : List ValidationIssue :=
  (part.features.map (featureChecks part)).flatten ++ negativeSolidCheck part

/-- Closed form of the chain section of `validate`. -/
def validateChains (table : ToleranceTable) (part : Part) : List ValidationIssue :=
  (part.chains.map (chainIssues table part)).flatten

/-- Folding list-append of a projection equals the initial list followed by
the joined mapped lists. -/
theorem foldl_append_eq_join {α β : Type} (g : α → List β) (l : List α)
    (init : List β) :
    l.foldl (fun acc x => acc ++ g x) init = init ++ (l.map g).flatten := by
  induction l generalizing init with
  | nil => simp
  | cons x xs ih => simp [ih]

/-- The validator's issue list splits into its three sections in declaration
order. -/
theorem validate_eq_sections (table : ToleranceTable) (part : Part) :
    validate table part =
      validateParams part ++ validateFeatures part ++ validateChains table part := by
  simp [validate, validateParams, validateFeatures, validateChains,
    foldl_append_eq_join]

/-- Direct dependencies of a feature: an extrude depends on the feature
named by its `sketch` parameter, per §4.4. -/
def depsOf (f : Feature) : List String :=
  match f.type with
  | .sketch => []
  | .extrude =>
    match f.params.lookup "sketch" with
    | some (.str s) => [s]
    | _ => []

/-- Dependencies of the feature with the given name, empty if absent. -/
def depNames (part : Part) (n : String) : List String :=
  match part.features.find? (fun f => f.name == n) with
  | some f => depsOf f
  | none => []

/-- Names reachable from a feature name through dependency edges, with fuel
bounding the path length. -/
def reachSet (part : Part) : Nat → String → List String
  | 0, _ => []
  | fuel+1, n =>
    let ds := depNames part n
    ds ++ (ds.map (reachSet part fuel)).flatten

/-- Modelled from the spec: cycle detection in the feature dependency graph,
per §4.4: a cycle exists when some feature reaches its own name through
dependency edges (paths longer than the feature count cannot add new
cycles). -/
def hasCycle (part : Part) : Bool :=
  part.features.any (fun f =>
    (reachSet part part.features.length f.name).contains f.name)

/-- A feature is ready to build when none of its dependencies is still
unbuilt; a dependency naming no remaining feature does not block (missing
references are a validation concern, per §3). -/
def readyFeature (remaining : List Feature) (f : Feature) : Bool :=
  (depsOf f).all (fun d => !(remaining.any (fun g => g.name == d)))

/-- Modelled from the spec: fuel-bounded topological ordering of features by
dependencies, per §4.4. -/
def buildOrderAux : Nat → List Feature → List Feature
  | 0, _ => []
  | fuel+1, remaining =>
    let ready := remaining.filter (readyFeature remaining)
    if ready.isEmpty then []
    else ready ++ buildOrderAux fuel (remaining.filter (fun f => !(readyFeature remaining f)))

/-- Dependency-ordered build list of a part's features. -/
def buildOrder (part : Part) : List Feature :=
  buildOrderAux part.features.length part.features

/-- Per-parameter evaluation `{nominal, min, max}` from the tolerance-class
deviation range, per §6. -/
def paramEval (table : ToleranceTable) (p : Param) : ChainEval :=
  let d := lookupDev table p.tolerance_class
  ⟨p.value, p.value + d.1, p.value + d.2⟩

/-- The fatal `FEATURE_CYCLE` issue, per §4.4. -/
def featureCycleIssue : ValidationIssue :=
  ⟨"FEATURE_CYCLE", .error, "feature dependency graph contains a cycle",
    [], [], []⟩

/-- Rebuild result `{params_eval, chains_eval, issues, meshRefs}`, per §6
(`RebuildResponse` in ir.ts; the mesh is modelled by the list of per-feature
mesh tags). -/
structure RebuildResult where
  params_eval : List (String × ChainEval)
  chains_eval : List (String × ChainEval)
  issues : List ValidationIssue
  meshRefs : List String
  deriving DecidableEq

/-- Modelled from the spec: `rebuild(part)` of the backend orchestrator
(absent from the source tree), per §4.4: a dependency cycle aborts the whole
rebuild with a single `FEATURE_CYCLE` issue and no geometry; otherwise the
validator runs, every feature is built in dependency order with its mesh
fragment tagged by the feature name, and all chains are analyzed. -/
def rebuild (table : ToleranceTable) (part : Part) : RebuildResult :=
  if hasCycle part then
    ⟨[], [], [featureCycleIssue], []⟩
  else
    ⟨part.params.map (fun kv => (kv.1, paramEval table kv.2)),
     part.chains.map (fun c => (c.name, analyze table part c)),
     validate table part,
     (buildOrder part).map (fun f => f.name)⟩

/-- Claim C4: rebuild is deterministic — two invocations on the same part
value give identical `params_eval`, `chains_eval` and `issues` — and the
validator emits issues in declaration order: all parameter issues first,
then feature issues, then chain issues. -/
theorem rebuild_deterministic_ordered (table : ToleranceTable) (part : Part) :
    (rebuild table part).params_eval = (rebuild table part).params_eval ∧
    (rebuild table part).chains_eval = (rebuild table part).chains_eval ∧
    (rebuild table part).issues = (rebuild table part).issues ∧
    validate table part =
      validateParams part ++ validateFeatures part ++ validateChains table part :=
  ⟨rfl, rfl, rfl, validate_eq_sections table part⟩

/-- Claim C5: a cycle in the feature dependency graph aborts rebuild with
exactly one `FEATURE_CYCLE` issue and no mesh output at all. -/
theorem feature_cycle_aborts (table : ToleranceTable) (part : Part)
    (h : hasCycle part = true) :
    (rebuild table part).issues = [featureCycleIssue] ∧
    featureCycleIssue.code = "FEATURE_CYCLE" ∧
    (rebuild table part).meshRefs = [] := by
  refine ⟨?_, rfl, ?_⟩ <;> simp [rebuild, h]

/-- Two extrude features that reference each other's output as a sketch
source. -/
def exCyclePart : Part :=
  { name := "cyc"
  , params := []
  , features :=
      [ { type := .extrude, name := "e1", params := [("sketch", .str "e2")]
        , critical := false, sketch := none }
      , { type := .extrude, name := "e2", params := [("sketch", .str "e1")]
        , critical := false, sketch := none } ]
  , chains := [] }

/-- Witness for C5: the cycle theorem applied to the two mutually-referencing
extrudes. -/
theorem feature_cycle_aborts_witness :
    (rebuild exTable exCyclePart).issues = [featureCycleIssue] ∧
    featureCycleIssue.code = "FEATURE_CYCLE" ∧
    (rebuild exTable exCyclePart).meshRefs = [] :=
  feature_cycle_aborts exTable exCyclePart (by decide)

/-- Claim C6: a part containing at least one extrude feature in which every
extrude has `operation = cut` receives an error-severity `NEGATIVE_SOLID`
issue from validation. -/
theorem negative_solid_flagged (table : ToleranceTable) (part : Part)
    (_hne : part.features.filter isExtrude ≠ [])
    (hall : ∀ f ∈ part.features, isExtrude f = true →
      f.params.lookup "operation" = some (.str "cut")) :
    ∃ i ∈ validate table part, i.code = "NEGATIVE_SOLID" ∧ i.severity = .error := by
  have hfilter : part.features.filter isCutExtrude = part.features.filter isExtrude := by
    apply List.filter_congr
    intro f hf
    cases hx : isExtrude f with
    | true =>
      simp [isCutExtrude, hx, hall f hf hx]
    | false =>
      simp [isCutExtrude, hx]
  have hneg : negativeSolidCheck part =
      [⟨"NEGATIVE_SOLID", .error,
        "All extrude operations are cuts - no base solid to cut from",
        [], (part.features.filter isExtrude).map (fun f => f.name), []⟩] := by
    simp [negativeSolidCheck, hfilter]
  rw [validate_eq_sections]
  refine ⟨⟨"NEGATIVE_SOLID", .error,
    "All extrude operations are cuts - no base solid to cut from",
    [], (part.features.filter isExtrude).map (fun f => f.name), []⟩, ?_, rfl, rfl⟩
  apply List.mem_append.2
  left
  apply List.mem_append.2
  right
  rw [validateFeatures, hneg]
  simp

/-- A part whose only extrude feature is a cut. -/
def exAllCutPart : Part :=
  { name := "allcut"
  , params := []
  , features :=
      [ { type := .sketch, name := "s1", params := [], critical := false, sketch := none }
      , { type := .extrude, name := "e1"
        , params := [("sketch", .str "s1"), ("operation", .str "cut")]
        , critical := false, sketch := none } ]
  , chains := [] }

/-- Witness for C6: the negative-solid theorem applied to the all-cut part. -/
theorem negative_solid_flagged_witness :
    ∃ i ∈ validate exTable exAllCutPart,
      i.code = "NEGATIVE_SOLID" ∧ i.severity = .error :=
  negative_solid_flagged exTable exAllCutPart (by decide) (by decide)

/-! ## IR interface shape (spec §6, ir.ts) -/

/-- Field names of `interface Part` in ir.ts, in declaration order:
`name`, `params`, `features`, `chains`, and the optional `constraints` and
`sketches`. -/
def partFieldNames : List String :=
  ["name", "params", "features", "chains", "constraints", "sketches"]

/-- Field names of `interface Feature` in ir.ts. -/
def featureFieldNames : List String :=
  ["type", "name", "params", "critical", "sketch"]

/-- The values of `Feature.type` in ir.ts. -/
def featureTypeNames : List String :=
  ["sketch", "extrude"]

/-- Field names of `interface RebuildResponse` in ir.ts. -/
def rebuildResponseFieldNames : List String :=
  ["mesh", "params_eval", "chains_eval", "issues"]

/-- Field names of `interface ParamEvaluation` / `ChainEvaluation` in ir.ts. -/
def evaluationFieldNames : List String :=
  ["nominal", "min", "max"]

/-- The `Part` shape stated by spec §6: exactly `name`, `params`,
`features`, `chains`. -/
def specPartFieldNames : List String :=
  ["name", "params", "features", "chains"]

/-- Claim C7 fails as stated: the `Part` interface of ir.ts does not have
exactly the four field names the spec lists — it also declares the optional
`constraints` and `sketches` fields. -/
theorem ir_shape_counterexample : partFieldNames ≠ specPartFieldNames := by
  decide

/-- Claim C7, amended: the `Part` interface carries the four spec-listed
field names followed by the optional `constraints` and `sketches`; `Feature`
is `{type, name, params, critical, sketch}` with the type drawn from
`{sketch, extrude}`; the rebuild result carries `mesh`, `params_eval`,
`chains_eval` and `issues`, the evaluations shaped `{nominal, min, max}`. -/
theorem ir_shape_amended :
    partFieldNames = specPartFieldNames ++ ["constraints", "sketches"] ∧
    featureFieldNames = ["type", "name", "params", "critical", "sketch"] ∧
    featureTypeNames = ["sketch", "extrude"] ∧
    rebuildResponseFieldNames = ["mesh", "params_eval", "chains_eval", "issues"] ∧
    evaluationFieldNames = ["nominal", "min", "max"] := by
  decide

/-! ## Immutability of frontend edits (App.tsx) -/

/-- Heap of the JavaScript objects relevant to the edit handlers of App.tsx:
array objects holding `part.features` and record objects holding
`part.params`.  References are indices into the heap; allocation appends. -/
structure Store where
  arrays : List (List Feature)
  records : List (List (String × Param))
  deriving DecidableEq

/-- Read an array object; an unallocated reference reads as empty. -/
def Store.getArr (s : Store) (r : Nat) : List Feature :=
  s.arrays.getD r []

/-- Read a record object; an unallocated reference reads as empty. -/
def Store.getRec (s : Store) (r : Nat) : List (String × Param) :=
  s.records.getD r []

/-- A `Part` as held in frontend state: the `features` array and the
`params` record are references into the store.  Chains carry no mutation in
the modelled handlers and are omitted. -/
structure PartH where
  name : String
  paramsRef : Nat
  featuresRef : Nat
  deriving DecidableEq

/-- JavaScript object spread update `{...obj, [k]: v}`: an existing key is
replaced in place, a new key is appended. -/
def jsRecordSet (l : List (String × Param)) (k : String) (v : Param) :
    List (String × Param) :=
  if l.any (fun e => e.1 == k) then
    l.map (fun e => if e.1 == k then (k, v) else e)
  else l ++ [(k, v)]

/-- Translated from `handleParamChange` in App.tsx: spreads a fresh params
record with the edited parameter's `value` replaced and returns a new part
value pointing at it; the features array reference is shared unchanged.
When the parameter is absent the JavaScript spread of `undefined` leaves the
other fields undefined, modelled with empty placeholders. -/
def handleParamChange (s : Store) (p : PartH) (paramName : String) (value : ℚ) :
    Store × PartH :=
  let oldParams := s.getRec p.paramsRef
  let updated : Param :=
    match oldParams.lookup paramName with
    | some pr => { pr with value := value }
    | none => { name := "", value := value, unit := "", tolerance_class := none }
  let newParams := jsRecordSet oldParams paramName updated
  ({ s with records := s.records ++ [newParams] },
   { p with paramsRef := s.records.length })

/-- Translated from `handleToleranceChange` in App.tsx, analogous to
`handleParamChange` with the `tolerance_class` field. -/
def handleToleranceChange (s : Store) (p : PartH) (paramName : String)
    (toleranceClass : Option String) : Store × PartH :=
  let oldParams := s.getRec p.paramsRef
  let updated : Param :=
    match oldParams.lookup paramName with
    | some pr => { pr with tolerance_class := toleranceClass }
    | none => { name := "", value := 0, unit := "", tolerance_class := toleranceClass }
  let newParams := jsRecordSet oldParams paramName updated
  ({ s with records := s.records ++ [newParams] },
   { p with paramsRef := s.records.length })

/-- Translated from the `onSketchChange` handler passed to `SketchEditor` in
App.tsx: `const updatedPart = { ...part }` shallow-copies the part, sharing
the features array reference, and `updatedPart.features[featureIndex] = ...`
then writes through that shared reference, replacing the matched sketch
feature with a copy carrying the updated sketch. -/
def onSketchChange (s : Store) (p : PartH) (featureName : String)
    (updatedSketch : Sketch) : Store × PartH :=
  let feats := s.getArr p.featuresRef
  match feats.findIdx? (fun f => f.type == FeatureType.sketch && f.name == featureName) with
  | some i =>
    match feats[i]? with
    | some oldF =>
      let newArr := feats.set i { oldF with sketch := some updatedSketch }
      ({ s with arrays := s.arrays.set p.featuresRef newArr }, p)
    | none => (s, p)
  | none => (s, p)

/-- The sketch feature held by the example store. -/
def exSketchFeat : Feature :=
  { type := .sketch, name := "sk", params := []
  , critical := false
  , sketch := some { name := "sk", plane := "XY", entities := [], constraints := [], dimensions := [] } }

/-- Example store: one features array holding the sketch feature, one params
record holding a thickness parameter. -/
def exStore : Store :=
  { arrays := [[exSketchFeat]]
  , records := [[("t", { name := "t", value := 5, unit := "mm", tolerance_class := none })]] }

/-- Example part snapshot pointing at the example store's objects. -/
def exPartH : PartH :=
  { name := "p", paramsRef := 0, featuresRef := 0 }

/-- An updated sketch differing from the one held in the store. -/
def exNewSketch : Sketch :=
  { name := "sk", plane := "XY"
  , entities :=
      [{ id := "L1", type := .line, start := some (0, 0), «end» := some (1, 1)
       , center := none, radius := none, corner1 := none, corner2 := none
       , isConstruction := false }]
  , constraints := [], dimensions := [] }

/-- Claim C8 fails as stated: the sketch edit mutates the features array
object reachable from the previously held part snapshot — after the edit,
reading the prior snapshot's features reference gives a different array. -/
theorem edit_immutability_counterexample :
    ((onSketchChange exStore exPartH "sk" exNewSketch).1).getArr exPartH.featuresRef ≠
      exStore.getArr exPartH.featuresRef := by
  decide

/-- Previously allocated objects read the same after an append-only
allocation. -/
theorem getD_append_of_lt {α : Type} (l l' : List α) (d : α) (n : Nat)
    (h : n < l.length) : (l ++ l').getD n d = l.getD n d := by
  simp [List.getD, List.getElem?_append, h]

/-- Writing an array cell and reading it back gives the written value. -/
theorem getD_set_self {α : Type} (l : List α) (n : Nat) (v d : α)
    (h : n < l.length) : (l.set n v).getD n d = v := by
  simp [List.getD, List.getElem?_set_eq_of_lt, h]

/-- Claim C8, amended: the parameter-value and tolerance-class edits build a
fresh params record and leave every previously allocated object unchanged,
sharing the features array; the sketch edit shallow-copies the part (the
returned part value equals the prior snapshot) and writes the replaced
feature into the features array shared with the prior snapshot, mutating
that array in place at the matched index while leaving the params records
unchanged. -/
theorem edit_immutability_amended (s : Store) (p : PartH)
    (paramName featureName : String) (value : ℚ) (toleranceClass : Option String)
    (sk : Sketch) (i : Nat) (oldF : Feature)
    (hidx : (s.getArr p.featuresRef).findIdx?
      (fun f => f.type == FeatureType.sketch && f.name == featureName) = some i)
    (hget : (s.getArr p.featuresRef)[i]? = some oldF)
    (href : p.featuresRef < s.arrays.length) :
    (handleParamChange s p paramName value).1.arrays = s.arrays ∧
    (∀ r, r < s.records.length →
      (handleParamChange s p paramName value).1.getRec r = s.getRec r) ∧
    (handleToleranceChange s p paramName toleranceClass).1.arrays = s.arrays ∧
    (∀ r, r < s.records.length →
      (handleToleranceChange s p paramName toleranceClass).1.getRec r = s.getRec r) ∧
    (onSketchChange s p featureName sk).1.records = s.records ∧
    (onSketchChange s p featureName sk).2 = p ∧
    (onSketchChange s p featureName sk).1.getArr p.featuresRef =
      (s.getArr p.featuresRef).set i { oldF with sketch := some sk } := by
  refine ⟨rfl, ?_, rfl, ?_, ?_, ?_, ?_⟩
  · intro r hr
    simp only [handleParamChange, Store.getRec]
    exact getD_append_of_lt _ _ _ _ hr
  · intro r hr
    simp only [handleToleranceChange, Store.getRec]
    exact getD_append_of_lt _ _ _ _ hr
  · simp only [onSketchChange, hidx, hget]
  · simp only [onSketchChange, hidx, hget]
  · simp only [onSketchChange, hidx, hget]
    simp only [Store.getArr]
    exact getD_set_self _ _ _ _ href

/-- Witness for C8's amended theorem: the sketch edit on the example store
rewrites the shared features array at index 0. -/
theorem edit_immutability_amended_witness :
    (onSketchChange exStore exPartH "sk" exNewSketch).1.getArr exPartH.featuresRef =
      (exStore.getArr exPartH.featuresRef).set 0 { exSketchFeat with sketch := some exNewSketch } :=
  (edit_immutability_amended exStore exPartH "t" "sk" 7 none exNewSketch 0
    exSketchFeat (by decide) (by decide) (by decide)).2.2.2.2.2.2

/-! ## Sketch editor dialogs (SketchEditor.tsx) -/

/-- Numeric value of a decimal digit character. -/
def digitVal (c : Char) : ℕ :=
  c.toNat - '0'.toNat

/-- Decimal digits to a natural number. -/
def digitsToNat (ds : List Char) : ℕ :=
  ds.foldl (fun a c => 10 * a + digitVal c) 0

/-- Exponent part of a JavaScript float literal: optional sign and digits;
malformed exponents are ignored (`parseFloat("1e") = 1`). -/
def parseExp (cs : List Char) : ℤ :=
  let sp : ℤ × List Char :=
    match cs with
    | '-' :: rest => (-1, rest)
    | '+' :: rest => (1, rest)
    | rest => (1, rest)
  let eDigits := sp.2.takeWhile Char.isDigit
  if eDigits.isEmpty then 0 else sp.1 * (digitsToNat eDigits : ℤ)

/-- Translated from the use of JavaScript `parseFloat` in
`handleDimensionSubmit`: skips leading whitespace, parses an optional sign,
integer digits, an optional fractional part and an optional exponent,
ignores trailing characters, and fails (`NaN`) when no digit is found.  The
non-finite literals JavaScript additionally accepts (`Infinity`) are outside
this model. -/
def jsParseFloat (s : String) : Option ℚ :=
  let cs := s.toList.dropWhile Char.isWhitespace
  let sp : ℚ × List Char :=
    match cs with
    | '-' :: rest => (-1, rest)
    | '+' :: rest => (1, rest)
    | rest => (1, rest)
  let intDigits := sp.2.takeWhile Char.isDigit
  let cs2 := sp.2.dropWhile Char.isDigit
  let fp : List Char × List Char :=
    match cs2 with
    | '.' :: rest => (rest.takeWhile Char.isDigit, rest.dropWhile Char.isDigit)
    | rest => ([], rest)
  if intDigits.isEmpty && fp.1.isEmpty then none
  else
    let mantissa : ℚ :=
      (digitsToNat intDigits : ℚ) + (digitsToNat fp.1 : ℚ) / ((10 : ℚ) ^ fp.1.length)
    let expo : ℤ :=
      match fp.2 with
      | 'e' :: rest => parseExp rest
      | 'E' :: rest => parseExp rest
      | _ => 0
    some (sp.1 * mantissa * (10 : ℚ) ^ expo)

/-- The selected rectangle edge held in editor state (`selectedEdge`). -/
structure SelEdge where
  entityId : String
  edgeIndex : ℕ
  deriving DecidableEq

/-- The four axis-aligned edges of a rectangle given two opposite corners,
in the order bottom, right, top, left, as listed in
`handleDimensionSubmit`. -/
def rectEdges (c1 c2 : ℚ × ℚ) : List ((ℚ × ℚ) × (ℚ × ℚ)) :=
  let minX := min c1.1 c2.1
  let maxX := max c1.1 c2.1
  let minY := min c1.2 c2.2
  let maxY := max c1.2 c2.2
  [ ((minX, minY), (maxX, minY))
  , ((maxX, minY), (maxX, maxY))
  , ((maxX, maxY), (minX, maxY))
  , ((minX, maxY), (minX, minY)) ]

/-- Translated from `handleAddDimension` in SketchEditor.tsx: requires a
selected entity that exists in the sketch, and preselects the dimension
type — `diameter` for a circle, `length` otherwise. -/
def handleAddDimension (sketch : Sketch) (selectedEntityId : Option String) :
    Option DimType :=
  match selectedEntityId with
  | none => none
  | some selId =>
    match sketch.entities.find? (fun e => e.id == selId) with
    | none => none
    | some e => some (if e.type == .circle then .diameter else .length)

/-- Translated from `handleDimensionSubmit` in SketchEditor.tsx: guards on a
selected entity and a non-empty value string, rejects values that do not
parse to a positive number, and either dimensions a rectangle edge (creating
its edge line entity when missing) or appends one dimension for the selected
line/circle entity with the preselected type and unit `mm`.  The fresh
`Date.now()`-based id is a parameter. -/
def handleDimensionSubmit (sketch : Sketch) (selectedEntityId : Option String)
    (selectedEdge : Option SelEdge) (dimensionType : DimType)
    (dimensionValue : String) (freshDimId : String) : Option Sketch :=
  match selectedEntityId with
  | none => none
  | some selId =>
    if dimensionValue = "" then none
    else
      match jsParseFloat dimensionValue with
      | none => none
      | some v =>
        if v ≤ 0 then none
        else
          match sketch.entities.find? (fun e => e.id == selId) with
          | none => none
          | some entity =>
            match entity.type, selectedEdge with
            | .rectangle, some se =>
              let c1 := entity.corner1.getD (0, 0)
              let c2 := entity.corner2.getD (0, 0)
              let edge := (rectEdges c1 c2).getD se.edgeIndex ((0, 0), (0, 0))
              let edgeLineId := "edge_" ++ selId ++ "_" ++ toString se.edgeIndex
              match sketch.entities.find? (fun e => e.id == edgeLineId) with
              | none =>
                let edgeLine : SketchEntity :=
                  { id := edgeLineId, type := .line, start := some edge.1
                  , «end» := some edge.2, center := none, radius := none
                  , corner1 := none, corner2 := none, isConstruction := false }
                some { sketch with
                  entities := sketch.entities ++ [edgeLine]
                  , dimensions := sketch.dimensions ++
                      [⟨freshDimId, .length, [edgeLineId], v, "mm"⟩] }
              | some _ =>
                some { sketch with dimensions := sketch.dimensions ++
                    [⟨freshDimId, .length, [edgeLineId], v, "mm"⟩] }
            | _, _ =>
              some { sketch with dimensions := sketch.dimensions ++
                  [⟨freshDimId, dimensionType, [selId], v, "mm"⟩] }

/-- The dimension-submission interface: opening the dialog via
`handleAddDimension` (which preselects the type from the selected entity)
followed by `handleDimensionSubmit`. -/
def addDimensionFlow (sketch : Sketch) (selectedEntityId : Option String)
    (selectedEdge : Option SelEdge) (dimensionValue freshDimId : String) :
    Option Sketch :=
  match handleAddDimension sketch selectedEntityId with
  | none => none
  | some dt =>
    handleDimensionSubmit sketch selectedEntityId selectedEdge dt
      dimensionValue freshDimId

/-- Claim C9: submitting a dimension on a selected line or circle entity
creates nothing when the value string does not parse to a number strictly
greater than zero, and otherwise appends exactly one dimension with unit
`mm` whose type is `diameter` exactly when the selected entity is a circle
and `length` otherwise. -/
theorem dimension_submit_behaviour (sketch : Sketch) (eid : String)
    (entity : SketchEntity) (selEdge : Option SelEdge) (valueStr fid : String)
    (hfind : sketch.entities.find? (fun e => e.id == eid) = some entity)
    (htype : entity.type = .line ∨ entity.type = .circle) :
    ((valueStr = "" ∨ jsParseFloat valueStr = none ∨
        ∃ v, jsParseFloat valueStr = some v ∧ v ≤ 0) →
      addDimensionFlow sketch (some eid) selEdge valueStr fid = none) ∧
    (∀ v, jsParseFloat valueStr = some v → 0 < v →
      addDimensionFlow sketch (some eid) selEdge valueStr fid =
        some { sketch with dimensions := sketch.dimensions ++
          [⟨fid, if entity.type == .circle then .diameter else .length,
            [eid], v, "mm"⟩] }) := by
  constructor
  · rintro (hv | hv | ⟨v, hv, hle⟩) <;>
      simp only [addDimensionFlow, handleAddDimension, handleDimensionSubmit, hfind, hv]
    · simp
    · by_cases he : valueStr = "" <;> simp [he]
    · by_cases he : valueStr = "" <;> simp [he, hle]
  · intro v hv hpos
    have hne : valueStr ≠ "" := by
      intro he
      rw [he, show jsParseFloat "" = none from by decide] at hv
      exact Option.noConfusion hv
    have hnle : ¬ v ≤ 0 := not_le.2 hpos
    rcases htype with ht | ht <;>
      · simp only [addDimensionFlow, handleAddDimension, handleDimensionSubmit,
          hfind, hv, hne, hnle, ht]
        simp [ht]

/-- Example sketch holding one circle entity. -/
def exCircleSketch : Sketch :=
  { name := "s2", plane := "XY"
  , entities :=
      [{ id := "C1", type := .circle, start := none, «end» := none
       , center := some (0, 0), radius := some 5, corner1 := none
       , corner2 := none, isConstruction := false }]
  , constraints := [], dimensions := [] }

/-- Witness for C9: submitting the value `"5"` on the selected circle
appends exactly one `diameter` dimension in millimetres. -/
theorem dimension_submit_behaviour_witness :
    addDimensionFlow exCircleSketch (some "C1") none "5" "d1" =
      some { exCircleSketch with dimensions := exCircleSketch.dimensions ++
        [⟨"d1", .diameter, ["C1"], 5, "mm"⟩] } := by
  have h := (dimension_submit_behaviour exCircleSketch "C1"
    { id := "C1", type := .circle, start := none, «end» := none
    , center := some (0, 0), radius := some 5, corner1 := none
    , corner2 := none, isConstruction := false }
    none "5" "d1" (by decide) (Or.inr rfl)).2 5 (by decide) (by decide)
  simpa using h

/-- Translated from `handleConstraintSubmit` in SketchEditor.tsx: with an
entity selected, appends one constraint whose `entity_ids` is the singleton
selected id — the `coincident` arm of the source ternary produces the same
singleton (its comment notes the second entity would still need selecting).
The fresh `Date.now()`-based id is a parameter. -/
def handleConstraintSubmit (sketch : Sketch) (selectedEntityId : Option String)
    (constraintType : ConstraintType) (freshConstraintId : String) :
    Option Sketch :=
  match selectedEntityId with
  | none => none
  | some selId =>
    let entityIds :=
      match constraintType with
      | .coincident => [selId]
      | _ => [selId]
    some { sketch with constraints := sketch.constraints ++
      [⟨freshConstraintId, constraintType, entityIds⟩] }

/-- Claim C10: submitting a constraint with an entity selected appends
exactly one constraint whose `entity_ids` is the singleton selected id — for
every constraint type, including `coincident` — and leaves the entities and
dimensions lists unchanged. -/
theorem constraint_submit_appends (sketch : Sketch) (eid : String)
    (ctype : ConstraintType) (fid : String) :
    handleConstraintSubmit sketch (some eid) ctype fid =
      some { sketch with constraints := sketch.constraints ++ [⟨fid, ctype, [eid]⟩] } ∧
    ({ sketch with constraints := sketch.constraints ++ [⟨fid, ctype, [eid]⟩] } : Sketch).entities =
      sketch.entities ∧
    ({ sketch with constraints := sketch.constraints ++ [⟨fid, ctype, [eid]⟩] } : Sketch).dimensions =
      sketch.dimensions := by
  refine ⟨?_, rfl, rfl⟩
  cases ctype <;> rfl

end Eidon
